import Mathlib

/-!
Verification of the `circuit-breaker` package.

Shallow embedding of `src/circuit-breaker/circuitbreaker.go` (package
`circuitbreaker`), together with proofs and refutations of the frozen claims
about it.

Modelling conventions:
* Go `int` counters are modelled as `Int` (the claims never approach the
  64-bit overflow boundary, and signedness matters for the negativity claims).
* `time.Time` values are modelled as `Int` timestamps; the Go zero value
  `time.Time{}` is the timestamp `0` (`IsZero` is `= 0`), and real clock
  readings are positive.  `time.Duration` values are `Int`s in the same unit.
  Each public call receives a single `now` used for every clock read it makes.
* `float64` values are modelled as exact rationals (`ℚ`); the only place a
  non-finite float arises in the source is the division
  `float64(totalFailures) / float64(totalRequests)`, which is modelled by
  `GoFloat` (finite / NaN / ±infinity) with Go's IEEE comparison semantics.
* A Go panic (nil-pointer dereference, index out of range) is modelled as an
  `Except.error` result.  Since the Go object lives on the heap, mutations
  made before the panic persist; every operation therefore returns the state
  it reached together with the outcome, and `defer`red calls run (and keep
  mutating) while a panic unwinds, exactly as in Go.
* `sync.RWMutex` operations are modelled as no-ops; claims about the lock
  itself (note that `MakeRequest` takes the write lock and then calls
  `Allow`, which takes the read lock of the same mutex) are concurrency
  behaviour outside the shallow embedding.
-/

namespace Circuitbreaker

/-- IEEE-754 `float64` values as they arise in the source: a finite value
(represented exactly as a rational), NaN, and the two infinities. -/
inductive GoFloat where
  | fin (q : ℚ)
  | nan
  | pinf
  | ninf
deriving Repr, DecidableEq

/-- Go float division `float64(a) / float64(b)` for integer numerators and
denominators: `0/0` is NaN, `±x/0` is `±∞`, otherwise exact. -/
def fdiv (a b : Int) : GoFloat :=
  if b = 0 then
    if a = 0 then .nan else if 0 < a then .pinf else .ninf
  else .fin ((a : ℚ) / (b : ℚ))

/-- Go `<` between a float value and a finite float constant: any comparison
with NaN is false, `-∞ < c` is true, `+∞ < c` is false. -/
def GoFloat.ltQ : GoFloat → ℚ → Bool
  | .fin q, c => q < c
  | .nan, _ => false
  | .pinf, _ => false
  | .ninf, _ => true

/-- Go `>` between a float value and a finite float constant. -/
def GoFloat.gtQ : GoFloat → ℚ → Bool
  | .fin q, c => c < q
  | .nan, _ => false
  | .pinf, _ => true
  | .ninf, _ => false

/-- Model of `type Bucket struct { requests int; failures int }` -/
structure Bucket where
  requests : Int
  failures : Int
deriving Repr, DecidableEq

/-- Model of `type State int`; `Closed`, `Open`, `HalfOpen`. -/
inductive State where
  | Closed
  | Open
  | HalfOpen
deriving Repr, DecidableEq

/-- Model of `var DefaultHalfOpenPercentages = []float64{0.1, 0.3, 0.5, 0.75, 1.0}` -/
def DefaultHalfOpenPercentages : List ℚ := [1/10, 3/10, 1/2, 3/4, 1]

/-- Model of `var DefaultInterMediatoryStateChangeInterval = time.Second * 1`
(one second, in the model's time unit). -/
def DefaultInterMediatoryStateChangeInterval : Int := 1

/-- Model of `type halfOpenInfo struct { ... }` -/
structure HalfOpenInfo where
  lastHalfOpenRequest : Int
  halfOpenStages : List ℚ
  halfOpenSubStateChangeInterval : Int
  currentPercentage : ℚ
  onFlightRequest : ℚ
  maxRequest : ℚ
deriving Repr, DecidableEq

/-- Helper for `(h *halfOpenInfo) NextStep`: the `for idx, percent := range
DefaultHalfOpenPercentages` loop, carrying the running index.  Indexing
`h.HalfOpenStages[idx+1]` out of range is a Go panic. -/
def nextStepLoop (h : HalfOpenInfo) : List ℚ → Int → Except String ℚ
  | [], _ => .ok 0
  | percent :: rest, idx =>
    if h.currentPercentage = percent then
      if idx = (h.halfOpenStages.length : Int) - 1 then .ok 1
      else
        match h.halfOpenStages.get? (idx + 1).toNat with
        | some v => .ok v
        | none => .error "index out of range"
    else nextStepLoop h rest (idx + 1)

/-- Model of `func (h *halfOpenInfo) NextStep() float64` -/
def HalfOpenInfo.nextStep (h : HalfOpenInfo) : Except String ℚ :=
  nextStepLoop h DefaultHalfOpenPercentages 0

/-- Model of `func (h *halfOpenInfo) ZeroState()`.  After the two defaulting branches
`h.HalfOpenStages` is non-empty, so the Go indexing `h.HalfOpenStages[0]`
cannot panic; `headD` with an unreachable default models it. -/
def HalfOpenInfo.zeroState (h : HalfOpenInfo) : HalfOpenInfo :=
  let interval :=
    if h.halfOpenSubStateChangeInterval ≤ 0 then DefaultInterMediatoryStateChangeInterval
    else h.halfOpenSubStateChangeInterval
  let stages :=
    if h.halfOpenStages.length = 0 then DefaultHalfOpenPercentages else h.halfOpenStages
  { h with
    halfOpenSubStateChangeInterval := interval
    halfOpenStages := stages
    lastHalfOpenRequest := 0
    onFlightRequest := 0
    currentPercentage := stages.headD 0 }

/-- Model of `type CircuitBreaker struct { ... }`.  The field `halfOpenInfo` is a Go
pointer (`*halfOpenInfo`), modelled as `Option`; `NewCircuitBreaker` leaves it
nil. -/
structure CircuitBreaker where
  lastStateChange : Int
  lastBucketTime : Int
  halfOpenInfo : Option HalfOpenInfo
  buckets : List Bucket
  lastIndex : Nat
  changeBucketDuration : Int
  currentRate : GoFloat
  stateStepInterval : Int
  threshold : ℚ
  windowInSeconds : Nat
  bucketPerSecond : Nat
  totalRequests : Int
  totalFailures : Int
  currentState : State
deriving Repr, DecidableEq

/-- Model of `func NewCircuitBreaker(windowInSeconds, bucketsPerSecond int, threshold
float64, stateStepInterval time.Duration) *CircuitBreaker`.  All unmentioned
fields take their Go zero values.  (Window geometry is taken as `Nat`: a
negative `make` length would itself panic in Go and no claim concerns it.) -/
def newCircuitBreaker (windowInSeconds bucketsPerSecond : Nat) (threshold : ℚ)
    (stateStepInterval : Int) : CircuitBreaker where
  lastStateChange := 0
  lastBucketTime := 0
  halfOpenInfo := none
  buckets := List.replicate (windowInSeconds * bucketsPerSecond) ⟨0, 0⟩
  lastIndex := 0
  changeBucketDuration := 0
  currentRate := .fin 0
  stateStepInterval := stateStepInterval
  threshold := threshold
  windowInSeconds := windowInSeconds
  bucketPerSecond := bucketsPerSecond
  totalRequests := 0
  totalFailures := 0
  currentState := .Closed

/-- Model of `func (cb *CircuitBreaker) ZeroState()`.  Go order: `lastBucketTime` is
zeroed first, then `cb.halfOpenInfo.ZeroState()` — a nil-pointer dereference
when `halfOpenInfo` is nil, leaving the earlier mutation in place. -/
def CircuitBreaker.zeroState (cb : CircuitBreaker) :
    CircuitBreaker × Except String Unit :=
  let cb := { cb with lastBucketTime := 0 }
  match cb.halfOpenInfo with
  | none => (cb, .error "nil pointer dereference")
  | some h =>
    ({ cb with
        halfOpenInfo := some h.zeroState
        buckets := cb.buckets.map fun _ => ⟨0, 0⟩
        lastIndex := 0
        currentRate := .fin 1
        totalFailures := 0
        totalRequests := 0 }, .ok ())

/-- Model of `func (cb *CircuitBreaker) setState(state State)` -/
def CircuitBreaker.setState (cb : CircuitBreaker) (now : Int) (s : State) :
    CircuitBreaker × Except String Unit :=
  match cb.zeroState with
  | (cb, .error e) => (cb, .error e)
  | (cb, .ok _) =>
    ({ cb with lastStateChange := now, currentState := s }, .ok ())

/-- Model of `func (cb *CircuitBreaker) updateStats()` -/
def CircuitBreaker.updateStats (cb : CircuitBreaker) : CircuitBreaker :=
  { cb with currentRate := fdiv cb.totalFailures cb.totalRequests }

/-- The two trailing `if` statements of `checkHalfOpenState`: `if
cb.halfOpenInfo.CurrentPercentage == 0 { return }` and `if
cb.halfOpenInfo.CurrentPercentage > 0.9 { cb.setState(Closed) }`, with `h`
the (possibly just advanced) half-open info. -/
def CircuitBreaker.checkHalfOpenTail (cb : CircuitBreaker) (now : Int)
    (h : HalfOpenInfo) : CircuitBreaker × Except String Unit :=
  if h.currentPercentage = 0 then (cb, .ok ())
  else if (9 : ℚ)/10 < h.currentPercentage then cb.setState now .Closed
  else (cb, .ok ())

/-- Model of `func (cb *CircuitBreaker) checkHalfOpenState()`.  Dereferences
`cb.halfOpenInfo` (nil panic), conditionally advances `CurrentPercentage` via
`NextStep`, then possibly `setState(Closed)`. -/
def CircuitBreaker.checkHalfOpenState (cb : CircuitBreaker) (now : Int) :
    CircuitBreaker × Except String Unit :=
  match cb.halfOpenInfo with
  | none => (cb, .error "nil pointer dereference")
  | some h =>
    if h.halfOpenSubStateChangeInterval ≤ now - h.lastHalfOpenRequest ∧
        (fdiv cb.totalFailures cb.totalRequests).gtQ (9/10) then
      match h.nextStep with
      | .error e => (cb, .error e)
      | .ok p =>
        let h := { h with currentPercentage := p }
        CircuitBreaker.checkHalfOpenTail { cb with halfOpenInfo := some h } now h
    else cb.checkHalfOpenTail now h

/-- Model of `func (cb *CircuitBreaker) closedAllow() bool` -/
def CircuitBreaker.closedAllow (cb : CircuitBreaker) : Bool :=
  cb.currentRate.ltQ cb.threshold

/-- The capacity comparison at the end of `halfOpenAllow`:
`allowedReqNumbers := cb.halfOpenInfo.MaxRequest *
cb.halfOpenInfo.CurrentPercentage`, clamped below by `1.0`, and the admission
answer `math.Abs(allowedReqNumbers - cb.halfOpenInfo.OnFlightRequest) < 0.01`.
The fields are re-read from `cb` after the possible `checkHalfOpenState`
call, as in the source. -/
def CircuitBreaker.halfOpenCapacityCheck (cb : CircuitBreaker) :
    CircuitBreaker × Except String Bool :=
  match cb.halfOpenInfo with
  | none => (cb, .error "nil pointer dereference")
  | some h =>
    let allowedReqNumbers := h.maxRequest * h.currentPercentage
    let allowedReqNumbers := if allowedReqNumbers < 1 then 1 else allowedReqNumbers
    (cb, .ok (|allowedReqNumbers - h.onFlightRequest| < 1/100))

/-- Model of `func (cb *CircuitBreaker) halfOpenAllow() bool`.  The first field access
`cb.halfOpenInfo.LastHalfOpenRequest` is a nil panic when the pointer is
nil. -/
def CircuitBreaker.halfOpenAllow (cb : CircuitBreaker) (now : Int) :
    CircuitBreaker × Except String Bool :=
  match cb.halfOpenInfo with
  | none => (cb, .error "nil pointer dereference")
  | some h0 =>
    match (if h0.halfOpenSubStateChangeInterval < now - h0.lastHalfOpenRequest then
        cb.checkHalfOpenState now
      else (cb, .ok ())) with
    | (cb, .error e) => (cb, .error e)
    | (cb, .ok _) => cb.halfOpenCapacityCheck

/-- Model of `func (cb *CircuitBreaker) Allow() bool` (the lock operations are
modelled as no-ops). -/
def CircuitBreaker.allow (cb : CircuitBreaker) (now : Int) :
    CircuitBreaker × Except String Bool :=
  match cb.currentState with
  | .Closed => (cb, .ok cb.closedAllow)
  | .Open => (cb, .ok false)
  | .HalfOpen => cb.halfOpenAllow now

/-- Model of `func (cb *CircuitBreaker) StateEval()` -/
def CircuitBreaker.stateEval (cb : CircuitBreaker) (now : Int) :
    CircuitBreaker × Except String Unit :=
  match cb.currentState with
  | .HalfOpen => cb.checkHalfOpenState now
  | .Open =>
    if cb.stateStepInterval < now - cb.lastStateChange then cb.setState now .HalfOpen
    else (cb, .ok ())
  | .Closed =>
    if cb.currentRate.ltQ cb.threshold then cb.setState now .Closed
    else (cb, .ok ())

/-- The `cb.lastBucketTime.IsZero()` branch at the top of `getBucketIndex`:
`cb.lastBucketTime = time.Now(); cb.buckets[cb.lastIndex] = Bucket{}`.  The
slice write is an out-of-range panic when the index is bad, and
`lastBucketTime` is set before it, so that mutation survives the panic. -/
def CircuitBreaker.initBucketTime (cb : CircuitBreaker) (now : Int) :
    CircuitBreaker × Except String Unit :=
  if cb.lastBucketTime = 0 then
    let cb := { cb with lastBucketTime := now }
    match cb.buckets.get? cb.lastIndex with
    | none => (cb, .error "index out of range")
    | some _ => ({ cb with buckets := cb.buckets.set cb.lastIndex ⟨0, 0⟩ }, .ok ())
  else (cb, .ok ())

/-- The remainder of `getBucketIndex` after the `IsZero` initialization: the
early return inside one `changeBucketDuration`, otherwise the rotation that
subtracts the current bucket's counters from the running totals, advances
`lastIndex`, zeroes the bucket rotated into and recomputes the rate. -/
def CircuitBreaker.rotate (cb : CircuitBreaker) (now : Int) :
    CircuitBreaker × Except String Nat :=
  if now - cb.lastBucketTime < cb.changeBucketDuration then (cb, .ok cb.lastIndex)
  else
    match cb.buckets.get? cb.lastIndex with
    | none => (cb, .error "index out of range")
    | some outDatedBucket =>
      let cb := { cb with
        totalRequests := cb.totalRequests - outDatedBucket.requests
        totalFailures := cb.totalFailures - outDatedBucket.failures }
      let newIdx := (cb.lastIndex + 1) % cb.buckets.length
      let cb := { cb with
        lastIndex := newIdx
        buckets := cb.buckets.set newIdx ⟨0, 0⟩
        lastBucketTime := now }
      let cb := cb.updateStats
      (cb, .ok cb.lastIndex)

/-- Model of `func (cb *CircuitBreaker) getBucketIndex() int`. -/
def CircuitBreaker.getBucketIndex (cb : CircuitBreaker) (now : Int) :
    CircuitBreaker × Except String Nat :=
  match cb.initBucketTime now with
  | (cb, .error e) => (cb, .error e)
  | (cb, .ok _) => cb.rotate now

/-- Model of `cb.totalRequests++; cb.buckets[idx].requests++` from `MakeRequest`.  In
Go the total is incremented before the slice access; since the increment does
not affect the slice, the two updates are stated together, and the total is
incremented even when the slice write panics. -/
def bumpRequests (cb : CircuitBreaker) (idx : Nat) :
    CircuitBreaker × Except String Unit :=
  match cb.buckets.get? idx with
  | none => ({ cb with totalRequests := cb.totalRequests + 1 }, .error "index out of range")
  | some b =>
    ({ cb with
        totalRequests := cb.totalRequests + 1
        buckets := cb.buckets.set idx { b with requests := b.requests + 1 } }, .ok ())

/-- Model of `cb.totalFailures++; cb.buckets[idx].failures++` from `MakeRequest`, in
the same shape as `bumpRequests`. -/
def bumpFailures (cb : CircuitBreaker) (idx : Nat) :
    CircuitBreaker × Except String Unit :=
  match cb.buckets.get? idx with
  | none => ({ cb with totalFailures := cb.totalFailures + 1 }, .error "index out of range")
  | some b =>
    ({ cb with
        totalFailures := cb.totalFailures + 1
        buckets := cb.buckets.set idx { b with failures := b.failures + 1 } }, .ok ())

/-- The body of `MakeRequest` between `idx := cb.getBucketIndex()` and
`cb.updateStats()`: `cb.totalRequests++; cb.buckets[idx].requests++`, then —
when the operation returned an error — `cb.totalFailures++;
cb.buckets[idx].failures++` (Go order preserved). -/
def recordOutcome (cb : CircuitBreaker) (idx : Nat) (opFails : Bool) :
    CircuitBreaker × Except String Unit :=
  match bumpRequests cb idx with
  | (cb, .error e) => (cb, .error e)
  | (cb, .ok _) => if opFails then bumpFailures cb idx else (cb, .ok ())

/-- Result of a `MakeRequest` call that did not panic: either the request was
dropped before the user operation ran (`ErrRequestDropped`), or the operation
ran and its error (if any) was forwarded. -/
inductive MRResult where
  | dropped
  | done (opFailed : Bool)
deriving Repr, DecidableEq

/-- Propositional equality of `Except` results is decidable (needed to
evaluate the model at concrete inputs). -/
instance {e a : Type} [DecidableEq e] [DecidableEq a] : DecidableEq (Except e a) := fun x y =>
  match x, y with
  | .error e1, .error e2 =>
    if h : e1 = e2 then .isTrue (by rw [h]) else .isFalse (fun hc => h (by cases hc; rfl))
  | .ok v1, .ok v2 =>
    if h : v1 = v2 then .isTrue (by rw [h]) else .isFalse (fun hc => h (by cases hc; rfl))
  | .error e1, .ok v2 => .isFalse (fun hc => Except.noConfusion hc)
  | .ok v1, .error e2 => .isFalse (fun hc => Except.noConfusion hc)

/-- Model of `func (cb *CircuitBreaker) MakeRequest(f func() error) error`.  The
user-supplied operation is abstracted by `opFails` (whether `f()` returns an
error); it is evaluated only on the admitted path.  `defer cb.StateEval()` is
registered before the `Allow` check, so it runs on the early-return path and
also while a panic unwinds, after the explicit `cb.StateEval()` call of the
normal path. -/
def CircuitBreaker.makeRequest (cb : CircuitBreaker) (now : Int) (opFails : Bool) :
    CircuitBreaker × Except String MRResult :=
  match cb.allow now with
  | (cb, .error e) =>
    let (cb, _) := cb.stateEval now
    (cb, .error e)
  | (cb, .ok false) =>
    match cb.stateEval now with
    | (cb, .error e) => (cb, .error e)
    | (cb, .ok _) => (cb, .ok .dropped)
  | (cb, .ok true) =>
    match cb.getBucketIndex now with
    | (cb, .error e) =>
      let (cb, _) := cb.stateEval now
      (cb, .error e)
    | (cb, .ok idx) =>
      match recordOutcome cb idx opFails with
      | (cb, .error e) =>
        let (cb, _) := cb.stateEval now
        (cb, .error e)
      | (cb, .ok _) =>
        let cb := cb.updateStats
        match cb.stateEval now with
        | (cb, .error e) =>
          let (cb, _) := cb.stateEval now
          (cb, .error e)
        | (cb, .ok _) =>
          match cb.stateEval now with
          | (cb, .error e) => (cb, .error e)
          | (cb, .ok _) => (cb, .ok (.done opFails))

/-- One step of a recorded-call run: feed a `MakeRequest` at the given time
with the given operation outcome, keeping whatever state the call reached
(Go heap state persists across a panic). -/
def step (cb : CircuitBreaker) (p : Int × Bool) : CircuitBreaker :=
  (cb.makeRequest p.1 p.2).1

/-- The breaker state after a sequence of recorded calls starting from a
freshly constructed breaker. -/
def run (windowInSeconds bucketsPerSecond : Nat) (threshold : ℚ)
    (stateStepInterval : Int) (calls : List (Int × Bool)) : CircuitBreaker :=
  calls.foldl step (newCircuitBreaker windowInSeconds bucketsPerSecond threshold stateStepInterval)

/-- Sum of the `requests` fields over all buckets. -/
def sumRequests (cb : CircuitBreaker) : Int :=
  (cb.buckets.map Bucket.requests).sum

/-- Sum of the `failures` fields over all buckets. -/
def sumFailures (cb : CircuitBreaker) : Int :=
  (cb.buckets.map Bucket.failures).sum

/-!
The accounting invariant.

`MakeRequest` adds to the running totals and to the head bucket together, and
a rotation subtracts exactly the head bucket's counters from the totals.  The
invariant that survives every operation (including the partially executed
ones that end in a panic) is: the totals are non-negative, and the head
bucket's counters are non-negative and bounded by the corresponding totals.
-/

/-- The accounting invariant of the breaker. -/
def Inv (cb : CircuitBreaker) : Prop :=
  0 ≤ cb.totalRequests ∧ 0 ≤ cb.totalFailures ∧
    ∀ bk, cb.buckets.get? cb.lastIndex = some bk →
      0 ≤ bk.requests ∧ bk.requests ≤ cb.totalRequests ∧
        0 ≤ bk.failures ∧ bk.failures ≤ cb.totalFailures

theorem Inv_zeroState {cb : CircuitBreaker} (h : Inv cb) : Inv cb.zeroState.1 := by
  obtain ⟨h1, h2, h3⟩ := h
  unfold CircuitBreaker.zeroState
  dsimp only
  split
  · exact ⟨h1, h2, fun bk hbk => h3 bk hbk⟩
  · refine ⟨le_refl 0, le_refl 0, fun bk hbk => ?_⟩
    dsimp only at hbk
    rw [List.get?_map] at hbk
    cases hg : cb.buckets.get? 0 with
    | none => rw [hg] at hbk; exact Option.noConfusion hbk
    | some b0 =>
      rw [hg] at hbk
      cases hbk
      exact ⟨le_refl 0, le_refl 0, le_refl 0, le_refl 0⟩

theorem Inv_setState {cb : CircuitBreaker} (now : Int) (s : State) (h : Inv cb) :
    Inv (cb.setState now s).1 := by
  unfold CircuitBreaker.setState
  have hz := Inv_zeroState h
  cases hres : cb.zeroState with
  | mk cb' r =>
    rw [hres] at hz
    cases r with
    | error e => exact hz
    | ok u => exact ⟨hz.1, hz.2.1, fun bk hbk => hz.2.2 bk hbk⟩

theorem Inv_updateStats {cb : CircuitBreaker} (h : Inv cb) : Inv cb.updateStats := by
  exact ⟨h.1, h.2.1, fun bk hbk => h.2.2 bk hbk⟩

theorem Inv_checkHalfOpenTail {cb : CircuitBreaker} (now : Int) (hoi : HalfOpenInfo)
    (h : Inv cb) : Inv (cb.checkHalfOpenTail now hoi).1 := by
  unfold CircuitBreaker.checkHalfOpenTail
  split
  · exact h
  · split
    · exact Inv_setState now .Closed h
    · exact h

theorem Inv_checkHalfOpenState {cb : CircuitBreaker} (now : Int) (h : Inv cb) :
    Inv (cb.checkHalfOpenState now).1 := by
  unfold CircuitBreaker.checkHalfOpenState
  split
  · exact h
  · split
    · split
      · exact h
      · exact Inv_checkHalfOpenTail now _ ⟨h.1, h.2.1, fun bk hbk => h.2.2 bk hbk⟩
    · exact Inv_checkHalfOpenTail now _ h

theorem Inv_halfOpenCapacityCheck {cb : CircuitBreaker} (h : Inv cb) :
    Inv cb.halfOpenCapacityCheck.1 := by
  unfold CircuitBreaker.halfOpenCapacityCheck
  split
  · exact h
  · exact h

theorem Inv_halfOpenAllow {cb : CircuitBreaker} (now : Int) (h : Inv cb) :
    Inv (cb.halfOpenAllow now).1 := by
  unfold CircuitBreaker.halfOpenAllow
  split
  · exact h
  · rename_i h0 heq
    have hmid : Inv (if h0.halfOpenSubStateChangeInterval < now - h0.lastHalfOpenRequest
        then cb.checkHalfOpenState now else (cb, Except.ok ())).1 := by
      split
      · exact Inv_checkHalfOpenState now h
      · exact h
    cases hres : (if h0.halfOpenSubStateChangeInterval < now - h0.lastHalfOpenRequest
        then cb.checkHalfOpenState now else (cb, Except.ok ())) with
    | mk cb' r =>
      rw [hres] at hmid
      cases r with
      | error e => exact hmid
      | ok u => exact Inv_halfOpenCapacityCheck hmid

theorem Inv_allow {cb : CircuitBreaker} (now : Int) (h : Inv cb) :
    Inv (cb.allow now).1 := by
  unfold CircuitBreaker.allow
  split
  · exact h
  · exact h
  · exact Inv_halfOpenAllow now h

theorem Inv_stateEval {cb : CircuitBreaker} (now : Int) (h : Inv cb) :
    Inv (cb.stateEval now).1 := by
  unfold CircuitBreaker.stateEval
  split
  · exact Inv_checkHalfOpenState now h
  · split
    · exact Inv_setState now .HalfOpen h
    · exact h
  · split
    · exact Inv_setState now .Closed h
    · exact h

theorem Inv_initBucketTime {cb : CircuitBreaker} (now : Int) (h : Inv cb) :
    Inv (cb.initBucketTime now).1 := by
  obtain ⟨h1, h2, h3⟩ := h
  unfold CircuitBreaker.initBucketTime
  split
  · dsimp only
    cases hg : cb.buckets.get? cb.lastIndex with
    | none => exact ⟨h1, h2, fun bk hbk => h3 bk hbk⟩
    | some b0 =>
      refine ⟨h1, h2, fun bk hbk => ?_⟩
      have hlt : cb.lastIndex < cb.buckets.length := by
        by_contra hge
        rw [List.get?_len_le (Nat.le_of_not_lt hge)] at hg
        exact Option.noConfusion hg
      rw [List.get?_set_eq_of_lt _ hlt] at hbk
      cases hbk
      exact ⟨le_refl 0, h1, le_refl 0, h2⟩
  · exact ⟨h1, h2, h3⟩

theorem Inv_rotate {cb : CircuitBreaker} (now : Int) (h : Inv cb) :
    Inv (cb.rotate now).1 := by
  obtain ⟨h1, h2, h3⟩ := h
  unfold CircuitBreaker.rotate
  split
  · exact ⟨h1, h2, h3⟩
  · split
    · exact ⟨h1, h2, fun bk hbk => h3 bk hbk⟩
    · rename_i out hg
      obtain ⟨hb1, hb2, hb3, hb4⟩ := h3 out hg
      have hlt : cb.lastIndex < cb.buckets.length := by
        by_contra hge
        rw [List.get?_len_le (Nat.le_of_not_lt hge)] at hg
        exact Option.noConfusion hg
      have hlen : 0 < cb.buckets.length := Nat.lt_of_le_of_lt (Nat.zero_le _) hlt
      have hmod : (cb.lastIndex + 1) % cb.buckets.length < cb.buckets.length :=
        Nat.mod_lt _ hlen
      dsimp only [CircuitBreaker.updateStats]
      refine ⟨by dsimp only; omega, by dsimp only; omega, fun bk hbk => ?_⟩
      dsimp only at hbk
      rw [List.get?_set_eq_of_lt _ hmod] at hbk
      cases hbk
      refine ⟨le_refl 0, by dsimp only; omega, le_refl 0, by dsimp only; omega⟩

theorem Inv_getBucketIndex {cb : CircuitBreaker} (now : Int) (h : Inv cb) :
    Inv (cb.getBucketIndex now).1 := by
  unfold CircuitBreaker.getBucketIndex
  have hinit := Inv_initBucketTime now h
  cases hres : cb.initBucketTime now with
  | mk cb' r =>
    rw [hres] at hinit
    cases r with
    | error e => exact hinit
    | ok u => exact Inv_rotate now hinit

theorem Inv_bumpRequests {cb : CircuitBreaker} (idx : Nat) (h : Inv cb) :
    Inv (bumpRequests cb idx).1 := by
  obtain ⟨h1, h2, h3⟩ := h
  unfold bumpRequests
  split
  · refine ⟨by dsimp only; omega, h2, fun bk hbk => ?_⟩
    dsimp only at hbk
    obtain ⟨a1, a2, a3, a4⟩ := h3 bk hbk
    exact ⟨a1, by dsimp only; omega, a3, a4⟩
  · rename_i b hg
    have hlt : idx < cb.buckets.length := by
      by_contra hge
      rw [List.get?_len_le (Nat.le_of_not_lt hge)] at hg
      exact Option.noConfusion hg
    refine ⟨by dsimp only; omega, h2, fun bk hbk => ?_⟩
    dsimp only at hbk
    by_cases hidx : idx = cb.lastIndex
    · subst hidx
      rw [List.get?_set_eq_of_lt _ hlt] at hbk
      cases hbk
      obtain ⟨a1, a2, a3, a4⟩ := h3 b hg
      exact ⟨by dsimp only; omega, by dsimp only; omega, a3, a4⟩
    · rw [List.get?_set_ne _ _ hidx] at hbk
      obtain ⟨a1, a2, a3, a4⟩ := h3 bk hbk
      exact ⟨a1, by dsimp only; omega, a3, a4⟩

theorem Inv_bumpFailures {cb : CircuitBreaker} (idx : Nat) (h : Inv cb) :
    Inv (bumpFailures cb idx).1 := by
  obtain ⟨h1, h2, h3⟩ := h
  unfold bumpFailures
  split
  · refine ⟨h1, by dsimp only; omega, fun bk hbk => ?_⟩
    dsimp only at hbk
    obtain ⟨a1, a2, a3, a4⟩ := h3 bk hbk
    exact ⟨a1, a2, a3, by dsimp only; omega⟩
  · rename_i b hg
    have hlt : idx < cb.buckets.length := by
      by_contra hge
      rw [List.get?_len_le (Nat.le_of_not_lt hge)] at hg
      exact Option.noConfusion hg
    refine ⟨h1, by dsimp only; omega, fun bk hbk => ?_⟩
    dsimp only at hbk
    by_cases hidx : idx = cb.lastIndex
    · subst hidx
      rw [List.get?_set_eq_of_lt _ hlt] at hbk
      cases hbk
      obtain ⟨a1, a2, a3, a4⟩ := h3 b hg
      exact ⟨a1, a2, by dsimp only; omega, by dsimp only; omega⟩
    · rw [List.get?_set_ne _ _ hidx] at hbk
      obtain ⟨a1, a2, a3, a4⟩ := h3 bk hbk
      exact ⟨a1, a2, a3, by dsimp only; omega⟩

theorem Inv_recordOutcome {cb : CircuitBreaker} (idx : Nat) (b : Bool) (h : Inv cb) :
    Inv (recordOutcome cb idx b).1 := by
  unfold recordOutcome
  have hbr := Inv_bumpRequests idx h
  cases hres : bumpRequests cb idx with
  | mk cb' r =>
    rw [hres] at hbr
    cases r with
    | error e => exact hbr
    | ok u =>
      dsimp only
      split
      · exact Inv_bumpFailures idx hbr
      · exact hbr

theorem Inv_makeRequest {cb : CircuitBreaker} (now : Int) (b : Bool) (h : Inv cb) :
    Inv (cb.makeRequest now b).1 := by
  unfold CircuitBreaker.makeRequest
  have hal := Inv_allow now h
  cases hres : cb.allow now with
  | mk cb1 r1 =>
    rw [hres] at hal
    cases r1 with
    | error e =>
      dsimp only
      have hse := Inv_stateEval now hal
      cases hres2 : cb1.stateEval now with
      | mk cb2 r2 => rw [hres2] at hse; exact hse
    | ok allowed =>
      cases allowed with
      | false =>
        dsimp only
        have hse := Inv_stateEval now hal
        cases hres2 : cb1.stateEval now with
        | mk cb2 r2 =>
          rw [hres2] at hse
          cases r2 with
          | error e => exact hse
          | ok u => exact hse
      | true =>
        dsimp only
        have hgb := Inv_getBucketIndex now hal
        cases hres2 : cb1.getBucketIndex now with
        | mk cb2 r2 =>
          rw [hres2] at hgb
          cases r2 with
          | error e =>
            dsimp only
            have hse := Inv_stateEval now hgb
            cases hres3 : cb2.stateEval now with
            | mk cb3 r3 => rw [hres3] at hse; exact hse
          | ok idx =>
            dsimp only
            have hro := Inv_recordOutcome idx b hgb
            cases hres3 : recordOutcome cb2 idx b with
            | mk cb3 r3 =>
              rw [hres3] at hro
              cases r3 with
              | error e =>
                dsimp only
                have hse := Inv_stateEval now hro
                cases hres4 : cb3.stateEval now with
                | mk cb4 r4 => rw [hres4] at hse; exact hse
              | ok u =>
                dsimp only
                have hup := Inv_updateStats hro
                have hse := Inv_stateEval now hup
                cases hres4 : cb3.updateStats.stateEval now with
                | mk cb4 r4 =>
                  rw [hres4] at hse
                  cases r4 with
                  | error e =>
                    dsimp only
                    have hse2 := Inv_stateEval now hse
                    cases hres5 : cb4.stateEval now with
                    | mk cb5 r5 => rw [hres5] at hse2; exact hse2
                  | ok u2 =>
                    dsimp only
                    have hse2 := Inv_stateEval now hse
                    cases hres5 : cb4.stateEval now with
                    | mk cb5 r5 =>
                      rw [hres5] at hse2
                      cases r5 with
                      | error e => exact hse2
                      | ok u3 => exact hse2

theorem Inv_step {cb : CircuitBreaker} (p : Int × Bool) (h : Inv cb) :
    Inv (step cb p) := Inv_makeRequest p.1 p.2 h

theorem Inv_newCircuitBreaker (w b : Nat) (t : ℚ) (i : Int) :
    Inv (newCircuitBreaker w b t i) := by
  refine ⟨le_refl 0, le_refl 0, fun bk hbk => ?_⟩
  have hmem := List.get?_mem hbk
  have := List.eq_of_mem_replicate hmem
  subst this
  exact ⟨le_refl 0, le_refl 0, le_refl 0, le_refl 0⟩

theorem Inv_foldl {cb : CircuitBreaker} (calls : List (Int × Bool)) (h : Inv cb) :
    Inv (calls.foldl step cb) := by
  induction calls generalizing cb with
  | nil => exact h
  | cons hd tl ih => exact ih (Inv_step hd h)

theorem Inv_run (w b : Nat) (t : ℚ) (i : Int) (calls : List (Int × Bool)) :
    Inv (run w b t i calls) :=
  Inv_foldl calls (Inv_newCircuitBreaker w b t i)

/-!
Concrete fixtures.

Breaker states used to evaluate the claims at concrete inputs.  Times are in
seconds.  The parameters follow the end-to-end scenarios of the spec
(`window_seconds = 10`, `buckets_per_second = 1`, `threshold = 0.5`,
`open_duration = 2 s`).
-/

/-- A breaker in CLOSED that has observed 10 requests with 6 failures in its
accumulating bucket (failure rate `0.6 ≥ threshold = 0.5`). -/
def cbSixOfTen : CircuitBreaker where
  lastStateChange := 0
  lastBucketTime := 5
  halfOpenInfo := none
  buckets := (List.replicate 10 (⟨0, 0⟩ : Bucket)).set 0 ⟨10, 6⟩
  lastIndex := 0
  changeBucketDuration := 1
  currentRate := .fin (6/10)
  stateStepInterval := 2
  threshold := 1/2
  windowInSeconds := 10
  bucketPerSecond := 1
  totalRequests := 10
  totalFailures := 6
  currentState := .Closed

/-- Half-open info at the first stage of the default ladder: baseline
`MaxRequest = 100`, `CurrentPercentage = 0.1`, no in-flight request, last
half-open request at `t = 100` with a 1-second sub-state interval. -/
def hoiStage0 : HalfOpenInfo where
  lastHalfOpenRequest := 100
  halfOpenStages := [1/10, 3/10, 1/2, 3/4, 1]
  halfOpenSubStateChangeInterval := 1
  currentPercentage := 1/10
  onFlightRequest := 0
  maxRequest := 100

/-- A breaker in HALF-OPEN at the first stage (info `hoiStage0`). -/
def cbHalfOpenStage0 : CircuitBreaker :=
  { cbSixOfTen with
      currentState := .HalfOpen
      halfOpenInfo := some hoiStage0 }

/-- A breaker in HALF-OPEN whose probes have all succeeded: 10 requests,
0 failures, and more than `substage_interval` since the last stage
activity. -/
def cbHalfOpenHealthy : CircuitBreaker :=
  { cbSixOfTen with
      currentState := .HalfOpen
      halfOpenInfo := some { hoiStage0 with lastHalfOpenRequest := 1 }
      totalRequests := 10
      totalFailures := 0
      currentRate := .fin 0 }

/-- A breaker whose ring holds counts both in the accumulating bucket
(index 2, `{1, 0}`) and in the running totals (`2` requests), idle since
`t = 5`. -/
def cbIdle : CircuitBreaker :=
  { cbSixOfTen with
      buckets := (List.replicate 10 (⟨0, 0⟩ : Bucket)).set 2 ⟨1, 0⟩
      lastIndex := 2
      totalRequests := 2
      totalFailures := 0
      currentRate := .fin 0
      lastBucketTime := 5 }

/-- A breaker in OPEN since `t = 0` with `stateStepInterval = 2 s` and an
initialized half-open info. -/
def cbOpenReady : CircuitBreaker :=
  { cbSixOfTen with
      currentState := .Open
      lastStateChange := 0
      halfOpenInfo := some hoiStage0 }

/-- The OPEN breaker `cbOpenReady`, but with its last state change at
`t = 4`, so that at `t = 5` less than `stateStepInterval` has elapsed. -/
def cbOpenFresh : CircuitBreaker :=
  { cbOpenReady with lastStateChange := 4 }

/-!
Helper lemmas for the general theorems.
-/

theorem setState_ok (cb : CircuitBreaker) {h : HalfOpenInfo} (now : Int) (s : State)
    (hh : cb.halfOpenInfo = some h) :
    (cb.setState now s).1.currentState = s ∧ (cb.setState now s).2 = Except.ok () := by
  unfold CircuitBreaker.setState CircuitBreaker.zeroState
  dsimp only
  rw [hh]
  exact ⟨rfl, rfl⟩

theorem allow_open {cb : CircuitBreaker} (now : Int) (hst : cb.currentState = State.Open) :
    cb.allow now = (cb, Except.ok false) := by
  unfold CircuitBreaker.allow
  rw [hst]

/-!
The claims.
-/

/-- Claim C1 (code bug): the totals invariant fails on the code.  After two
`MakeRequest` calls with succeeding operations (`t = 1 s`, `t = 2 s`) on
`NewCircuitBreaker(10, 1, 0.5, 2 s)`, the running total `totalRequests` is
`2` while the `requests` fields of the buckets sum to `1`: the rotation in
`getBucketIndex` subtracts the accumulating bucket's counters from the
totals without zeroing that bucket, and the partially executed `ZeroState`
(interrupted by the nil `halfOpenInfo` dereference) zeroes the head bucket
without touching the totals. -/
theorem C1_totals_desync :
    (run 10 1 (1/2) 2 [(1, false), (2, false)]).totalRequests = 2 ∧
      sumRequests (run 10 1 (1/2) 2 [(1, false), (2, false)]) = 1 := by
  with_unfolding_all decide

/-- Claim C2 (code bug): twenty successful calls do not stay CLOSED with all
calls succeeding — already the first `MakeRequest` on a freshly constructed
breaker panics: its final `StateEval` sees `currentRate = 0 < threshold`,
re-enters CLOSED via `setState`, and `ZeroState` dereferences the nil
`halfOpenInfo` pointer. -/
theorem C2_first_call_panics :
    ((newCircuitBreaker 10 1 (1/2) 2).makeRequest 1 false).2 =
      Except.error "nil pointer dereference" := by
  with_unfolding_all decide

/-- Claim C3 (code bug): 6 failures in 10 requests (failure rate `0.6`, with
`threshold = 0.5`) do not trip the breaker: `StateEval` has no CLOSED → OPEN
transition at all (its CLOSED arm only re-enters CLOSED when the rate is
below the threshold), so the state evaluation leaves the breaker unchanged
and still CLOSED. -/
theorem C3_no_trip_to_open :
    cbSixOfTen.stateEval 6 = (cbSixOfTen, Except.ok ()) ∧
      cbSixOfTen.currentState = State.Closed := by
  with_unfolding_all decide

/-- Claim C4 (counterexample): in HALF-OPEN at the first stage with baseline
`MaxRequest = 100` the claim's capacity is `max(1, ceil(100 × 0.1)) = 10` and
`in_flight = 0 < 10`, so the claim requires admission (and an in-flight
increment); `halfOpenAllow` instead denies the call (it admits only when
`|capacity − in_flight| < 0.01`) and leaves the breaker unchanged. -/
theorem C4_admission_counterexample :
    max 1 ⌈hoiStage0.maxRequest * hoiStage0.currentPercentage⌉ = 10 ∧
      hoiStage0.onFlightRequest = 0 ∧
      cbHalfOpenStage0.halfOpenAllow 100 = (cbHalfOpenStage0, Except.ok false) := by
  refine ⟨by norm_num [hoiStage0], by with_unfolding_all decide, by with_unfolding_all decide⟩

/-- Claim C4 (amended): in HALF-OPEN with the half-open info initialized and
at most `HalfOpenSubStateChangeInterval` elapsed since the last half-open
request, a call is admitted iff `|capacity − in_flight| < 0.01` where
`capacity = max(1, MaxRequest × CurrentPercentage)` (floating-point, no
ceiling), and the admission check changes nothing — in particular it never
increments the in-flight count. -/
theorem C4_halfOpen_admission (cb : CircuitBreaker) (now : Int) (h : HalfOpenInfo)
    (hh : cb.halfOpenInfo = some h)
    (ht : now - h.lastHalfOpenRequest ≤ h.halfOpenSubStateChangeInterval) :
    cb.halfOpenAllow now = (cb, Except.ok
      (decide (|max 1 (h.maxRequest * h.currentPercentage) - h.onFlightRequest|
        < (1 : ℚ)/100))) := by
  have hmax : (if h.maxRequest * h.currentPercentage < 1 then (1 : ℚ)
      else h.maxRequest * h.currentPercentage)
      = max 1 (h.maxRequest * h.currentPercentage) := by
    split
    · exact (max_eq_left (le_of_lt (by assumption))).symm
    · exact (max_eq_right (le_of_not_lt (by assumption))).symm
  unfold CircuitBreaker.halfOpenAllow
  rw [hh]
  dsimp only
  rw [if_neg (by omega)]
  dsimp only
  unfold CircuitBreaker.halfOpenCapacityCheck
  rw [hh]
  dsimp only
  rw [hmax]

/-- Witness for the amended C4 theorem at the concrete fixture. -/
theorem C4_halfOpen_admission_witness :
    cbHalfOpenStage0.halfOpenAllow 100 = (cbHalfOpenStage0, Except.ok
      (decide (|max 1 (hoiStage0.maxRequest * hoiStage0.currentPercentage) -
        hoiStage0.onFlightRequest| < (1 : ℚ)/100))) :=
  C4_halfOpen_admission cbHalfOpenStage0 100 hoiStage0 rfl (by decide)

/-- Claim C5 (code bug): a HALF-OPEN breaker whose probes have all succeeded
(10 requests, 0 failures, so `recent failure ratio = 0 < threshold = 0.5`)
and whose sub-state interval has long elapsed is left completely unchanged by
`checkHalfOpenState`: the stage neither advances nor ever promotes to
CLOSED, because the code advances only when the failure ratio exceeds
`0.9`. -/
theorem C5_no_advance_on_success :
    cbHalfOpenHealthy.checkHalfOpenState 5 = (cbHalfOpenHealthy, Except.ok ()) := by
  with_unfolding_all decide

/-- Claim C6 (code bug): after an idle period far longer than the whole
window (`t = 5 s` to `t = 100 s`, window 10 s), `getBucketIndex` advances a
single slot instead of resetting: the stale bucket at index 2 keeps its
count, the totals drop only by the head bucket's counters (to 1, not 0), the
head index moves to 3 (not 0), and the next record observes
`totalRequests = 2` rather than `1`. -/
theorem C6_no_idle_reset :
    (cbIdle.getBucketIndex 100).2 = Except.ok 3 ∧
      (cbIdle.getBucketIndex 100).1.totalRequests = 1 ∧
      (cbIdle.getBucketIndex 100).1.buckets.get? 2 = some ⟨1, 0⟩ ∧
      (cbIdle.getBucketIndex 100).1.lastIndex = 3 ∧
      (recordOutcome (cbIdle.getBucketIndex 100).1 3 false).1.totalRequests = 2 := by
  with_unfolding_all decide

/-- Claim C7 (counterexample): a call arriving in OPEN at `t = 5 s` with
`open_duration = stateStepInterval = 2 s` elapsed since the state change at
`t = 0` is NOT admitted: `MakeRequest` returns `ErrRequestDropped` and the
operation never runs (the result is `dropped` whatever the operation would
have returned); only the deferred state evaluation then moves the breaker to
HALF-OPEN. -/
theorem C7_open_probe_counterexample :
    (2 : Int) ≤ 5 - cbOpenReady.lastStateChange ∧
      (cbOpenReady.makeRequest 5 false).2 = Except.ok MRResult.dropped ∧
      (cbOpenReady.makeRequest 5 true).2 = Except.ok MRResult.dropped ∧
      (cbOpenReady.makeRequest 5 false).1.currentState = State.HalfOpen := by
  with_unfolding_all decide

/-- Claim C7 (amended): a call arriving in OPEN is never admitted — it
returns `ErrRequestDropped` without invoking its operation (the result is
independent of the operation's outcome); when strictly more than
`stateStepInterval` has elapsed since the last state change (and the
half-open info is initialized), the deferred `StateEval` of that same call
transitions the breaker to HALF-OPEN, so the NEXT call is evaluated under
the HALF-OPEN rules. -/
theorem C7_open_lazy_transition (cb : CircuitBreaker) (now : Int) (b : Bool)
    (h : HalfOpenInfo)
    (hst : cb.currentState = State.Open)
    (hh : cb.halfOpenInfo = some h)
    (ht : cb.stateStepInterval < now - cb.lastStateChange) :
    (cb.makeRequest now b).2 = Except.ok MRResult.dropped ∧
      (cb.makeRequest now b).1.currentState = State.HalfOpen := by
  have hset := setState_ok cb now State.HalfOpen hh
  have hse1 : (cb.stateEval now).1.currentState = State.HalfOpen := by
    unfold CircuitBreaker.stateEval
    rw [hst, if_pos ht]
    exact hset.1
  have hse2 : (cb.stateEval now).2 = Except.ok () := by
    unfold CircuitBreaker.stateEval
    rw [hst, if_pos ht]
    exact hset.2
  unfold CircuitBreaker.makeRequest
  rw [allow_open now hst]
  dsimp only
  cases hres : cb.stateEval now with
  | mk cb2 r2 =>
    rw [hres] at hse1 hse2
    cases r2 with
    | error e => exact Except.noConfusion hse2
    | ok u => exact ⟨rfl, hse1⟩

/-- Witness for the amended C7 theorem at the concrete fixture. -/
theorem C7_open_lazy_transition_witness :
    (cbOpenReady.makeRequest 5 true).2 = Except.ok MRResult.dropped ∧
      (cbOpenReady.makeRequest 5 true).1.currentState = State.HalfOpen :=
  C7_open_lazy_transition cbOpenReady 5 true hoiStage0 rfl rfl (by decide)

/-- Claim C8 (confirmed): while the breaker is OPEN and less than
`stateStepInterval` (the code's `open_duration`) has elapsed since the last
state change, `MakeRequest` returns `ErrRequestDropped`, the breaker is
completely unchanged, and the user operation is not invoked: the result is
`dropped` — the only path that evaluates the operation produces `done` — and
it is the same whatever the operation would have returned. -/
theorem C8_open_short_circuit (cb : CircuitBreaker) (now : Int) (b : Bool)
    (hst : cb.currentState = State.Open)
    (ht : now - cb.lastStateChange < cb.stateStepInterval) :
    cb.makeRequest now b = (cb, Except.ok MRResult.dropped) := by
  have hse : cb.stateEval now = (cb, Except.ok ()) := by
    unfold CircuitBreaker.stateEval
    rw [hst, if_neg (by omega)]
  unfold CircuitBreaker.makeRequest
  rw [allow_open now hst]
  dsimp only
  rw [hse]

/-- Witness for the C8 theorem at the concrete fixture. -/
theorem C8_open_short_circuit_witness :
    cbOpenFresh.makeRequest 5 true = (cbOpenFresh, Except.ok MRResult.dropped) :=
  C8_open_short_circuit cbOpenFresh 5 true rfl (by decide)

/-- Claim C9 (code bug): the breaker does panic.  `NewCircuitBreaker` leaves
the `halfOpenInfo` pointer nil and nothing ever assigns it, so the public
`ZeroState` method dereferences nil on a freshly constructed breaker (as
does the first `MakeRequest`, through `StateEval → setState → ZeroState`);
an earlier variant of the file even has `StateEval` raise
`panic("should be evaluated")` unconditionally. -/
theorem C9_zeroState_panics :
    (newCircuitBreaker 10 1 (1/2) 2).zeroState.2 =
      Except.error "nil pointer dereference" := by
  with_unfolding_all decide

/-- Claim C10 (confirmed): after any sequence of `MakeRequest` invocations on
a freshly constructed breaker — any window geometry, threshold and interval,
any call times (hence any interleaving of bucket rotations) and any
operation outcomes, and including calls that end in a panic — both running
totals are non-negative: each rotation subtracts exactly the counters of the
accumulating bucket, which are bounded by the totals. -/
theorem C10_totals_nonneg (w b : Nat) (t : ℚ) (i : Int) (calls : List (Int × Bool)) :
    0 ≤ (run w b t i calls).totalRequests ∧ 0 ≤ (run w b t i calls).totalFailures :=
  ⟨(Inv_run w b t i calls).1, (Inv_run w b t i calls).2.1⟩

end Circuitbreaker
